import Mathlib

/-!
Verification of the Open Tabs Canvas synchronization plugin.

Shallow embedding of the plugin's core operations:
  - card placement planner (`calculateMosaicPositions`, src/canvasManager.ts)
  - canvas readiness poll (`waitForCanvasFullyReady`, src/canvasManager.ts)
  - canvas creation from open tabs (`createCanvasFromOpenTabs`, src/canvasManager.ts)
  - file-node index (`buildFileNodeMap`, src/tabSync.ts) and its retry guard
  - highlight engine (`updateActiveHighlight` / `clearAllHighlights`, src/tabSync.ts)
  - single-card append (`addNodeToCanvas`, DragDropHandler)
  - output-folder normalization (settings.ts, canvasOutputFolder onChange)

Host primitives (vault storage, JSON parse/stringify, UUID generation, wall
clock) are modelled as explicit parameters or association lists; JavaScript
object assignment and `Map.set` are modelled by in-place-replacing association
lists, matching JS insertion-order semantics.
-/

namespace OpenTabsCanvas

/-! ## JavaScript value model

JSON-representable JavaScript values, used for canvas documents and for the
raw `file` field of a rendered canvas node (which is historically either a
path string or a `TFile` object carrying a `path` field). -/

inductive JsValue where
  | null
  | boolean (b : Bool)
  | num (n : Int)
  | str (s : String)
  | arr (elems : List JsValue)
  | obj (fields : List (String × JsValue))

/-- JavaScript truthiness of a JSON-representable value: `null`, `false`, `0`
and the empty string are falsy; arrays and objects (even empty) are truthy. -/
def truthy : JsValue → Bool
  | .null => false
  | .boolean b => b
  | .num n => n != 0
  | .str s => s != ""
  | .arr _ => true
  | .obj _ => true

/-- Truthiness of a possibly-absent property (`undefined` is falsy). -/
def truthyOpt : Option JsValue → Bool
  | none => false
  | some v => truthy v

/-! ## Association lists: JS object properties and `Map` entries

`assocGet` is property lookup / `Map.get`; `assocSet` is property assignment /
`Map.set`: replacing an existing key keeps its position, a new key is appended
at the end — exactly JS insertion-order semantics. -/

def assocGet {α : Type} : List (String × α) → String → Option α
  | [], _ => none
  | kv :: rest, k => if kv.1 == k then some kv.2 else assocGet rest k

def assocSet {α : Type} : List (String × α) → String → α → List (String × α)
  | [], k, v => [(k, v)]
  | kv :: rest, k, v =>
    if kv.1 == k then (k, v) :: rest else kv :: assocSet rest k v

/-! ## File-node index (TabSyncHandler.buildFileNodeMap) -/

/-- A rendered canvas card: its identity (standing in for the DOM node
element) and its raw `file` field. -/
structure NodeView where
  nodeId : Nat
  file : JsValue

/-- Path extraction from `nodeView.file` (tabSync.ts lines 64-72):
a direct string is taken as the path; otherwise a non-null object whose
`path` property is a string yields that string; anything else is unusable. -/
def extractFilePath : JsValue → Option String
  | .str s => some s
  | .obj fields =>
    match assocGet fields "path" with
    | some (.str p) => some p
    | _ => none
  | _ => none

/-- The `validNodeCount` counter as incremented inside `buildFileNodeMap`. -/
def validNodeCount (nodes : List (Option NodeView)) : Nat :=
  nodes.foldl
    (fun c onv =>
      match onv with
      | none => c
      | some nv =>
        match extractFilePath nv.file with
        | some _ => c + 1
        | none => c)
    0

/-- The retry delay of `buildFileNodeMap` (tabSync.ts: `setTimeout(..., 1000)`). -/
def retryDelayMs : Nat := 1000

/-- Number of executions of `buildFileNodeMap` in one binding session, driven
by the `hasRetriedBuildingMap` guard (tabSync.ts lines 86-98): a run that finds
zero valid nodes while the surface reports a non-zero node count schedules one
more run if the guard is unset (setting it), and otherwise only logs a
diagnostic. `snaps i` is the node collection seen by the i-th run; `fuel`
bounds the recursion (the guard itself stops it after one retry). -/
def buildMapAttempts (snaps : Nat → List (Option NodeView)) :
    Nat → Bool → Nat → Nat
  | _, _, 0 => 0
  | i, hasRetried, fuel + 1 =>
    if validNodeCount (snaps i) = 0 ∧ 0 < (snaps i).length then
      if hasRetried then 1
      else 1 + buildMapAttempts snaps (i + 1) true fuel
    else 1

/-! ## Highlight engine (TabSyncHandler.updateActiveHighlight)

Highlight state is the set of node ids whose element carries the
`is-active-tab` class, as a duplicate-free-by-construction list. -/

/-- Model of `classList.add`: idempotent insertion. -/
def addClass (hl : List Nat) (n : Nat) : List Nat :=
  if n ∈ hl then hl else n :: hl

/-- Embedding of `TabSyncHandler.clearAllHighlights`: remove the class from every node of
the bound surface's collection (nodes not in the collection are untouched). -/
def clearAllHighlights (canvasNodes : List Nat) (hl : List Nat) : List Nat :=
  hl.filter fun x => !(canvasNodes.contains x)

/-- Embedding of `TabSyncHandler.updateActiveHighlight` on one focus-change event:
`activeFile` is the now-active document's path (`none` when there is no active
leaf, the view is `empty`, or it has no file). All highlights on the surface
are cleared first; then the single node found for the path in the file-node
index, if any, is highlighted. -/
def updateActiveHighlight (canvasNodes : List Nat)
    (fileMap : List (String × NodeView)) (hl : List Nat)
    (activeFile : Option String) : List Nat :=
  match activeFile with
  | none => clearAllHighlights canvasNodes hl
  | some path =>
    let cleared := clearAllHighlights canvasNodes hl
    match assocGet fileMap path with
    | some nv => addClass cleared nv.nodeId
    | none => cleared

/-- Sequential processing of workspace focus-change events (the engine's
single `active-leaf-change` subscription handles one event at a time). -/
def processFocusEvents (canvasNodes : List Nat)
    (fileMap : List (String × NodeView)) (hl0 : List Nat)
    (events : List (Option String)) : List Nat :=
  events.foldl (updateActiveHighlight canvasNodes fileMap) hl0

/-- Number of highlighted cards among the surface's node collection. -/
def highlightedCount (canvasNodes hl : List Nat) : Nat :=
  (hl.filter fun x => canvasNodes.contains x).length

/-! ## Canvas readiness poll (CanvasManager.waitForCanvasFullyReady)

The surface is modelled by what each poll observes: `none` while
`leaf.view.canvas` does not exist yet, `some n` once it does, where `n` is
`canvas.nodes.size`. Each loop iteration sleeps 150 ms, so the poll at elapsed
time `t` is followed by one at `t + 150`; the loop runs while
`elapsed < maxWait`, i.e. for `⌈maxWait / 150⌉` iterations. -/

def waitPoll (surface : Nat → Option Nat) : Nat → Nat → Bool
  | _, 0 => false
  | t, fuel + 1 =>
    match surface t with
    | some nodeCount =>
      -- both source branches return true: with nodes present it logs and
      -- settles 500 ms first; otherwise "canvas view detected" suffices
      if 0 < nodeCount then true else true
    | none => waitPoll surface (t + 150) fuel

def pollBudget (maxWait : Nat) : Nat := (maxWait + 149) / 150

def waitForCanvasFullyReady (surface : Nat → Option Nat) (maxWait : Nat) :
    Bool :=
  waitPoll surface 0 (pollBudget maxWait)

/-! ## Canvas creation (CanvasManager.createCanvasFromOpenTabs) -/

/-- An open-tab record as consumed by `generateCanvasJSON`: the path of the
backing file when `tab.file && tab.file.path` holds. -/
structure TabInfo where
  filePath : Option String
  displayName : String

/-- The metadata object the plugin writes: `version "1.0"`, empty frontmatter. -/
def defaultMetadata : JsValue :=
  .obj [("version", .str "1.0"), ("frontmatter", .obj [])]

/-- Step 1 of canvas creation: the empty, structurally-complete document. -/
def emptyCanvasStructure : JsValue :=
  .obj [("nodes", .arr []), ("edges", .arr []), ("metadata", defaultMetadata)]

/-- Embedding of `CanvasManager.generateCanvasJSON`: one file node per tab with a file
path, positioned by `calculateMosaicPositions` at the tab's original index. -/
def ceilSqrt (n : Nat) : Nat :=
  if Nat.sqrt n * Nat.sqrt n = n then Nat.sqrt n else Nat.sqrt n + 1

/-- Embedding of `CanvasManager.calculateMosaicPositions`: the source's for-loop pushes, for
each `i < cardCount`, the pair
`(col * (cardWidth + spacing), row * (cardHeight + spacing))` with
`row = i / columnsPerRow`, `col = i % columnsPerRow`,
`columnsPerRow = ceil (sqrt cardCount)`. -/
def calculateMosaicPositions (cardCount cardWidth cardHeight spacing : Nat) :
    List (Nat × Nat) :=
  let columnsPerRow := ceilSqrt cardCount
  (List.range cardCount).map fun i =>
    ((i % columnsPerRow) * (cardWidth + spacing),
     (i / columnsPerRow) * (cardHeight + spacing))

def generateCanvasJSON (uuid : Nat → String) (tabs : List TabInfo) : JsValue :=
  -- the source calls calculateMosaicPositions(tabs.length) with its default
  -- card size 250 and spacing 50
  let positions := calculateMosaicPositions tabs.length 250 250 50
  let nodes := tabs.enum.filterMap fun itab =>
    match itab.2.filePath with
    | some p =>
      let pos := positions.getD itab.1 (0, 0)
      some (JsValue.obj
        [("id", .str (uuid itab.1)), ("type", .str "file"), ("file", .str p),
         ("x", .num (pos.1 : Int)), ("y", .num (pos.2 : Int)),
         ("width", .num 250), ("height", .num 250)])
    | none => none
  .obj [("nodes", .arr nodes), ("edges", .arr []), ("metadata", defaultMetadata)]

/-- Vault and pane state touched by canvas creation. -/
structure World where
  files : List (String × String)
  openedPanes : List String

/-- Model of `vault.modify`: replace the content of an existing file. -/
def vaultModify (files : List (String × String)) (path content : String) :
    List (String × String) :=
  files.map fun e => if e.1 == path then (path, content) else e

/-- Model of the `vault.read` / `vault.getAbstractFileByPath` composition. -/
def vaultRead (files : List (String × String)) (path : String) : Option String :=
  assocGet files path

/-- Embedding of `CanvasManager.createCanvasFromOpenTabs`: returns `null` immediately on an
empty tab list; otherwise creates the empty canvas file, opens it in a new
background pane, waits for readiness, and overwrites the file with the
populated document. The waits suspend without changing vault or pane state. -/
def createCanvasFromOpenTabs (uuid : Nat → String)
    (stringify : JsValue → String) (fileName : String) (tabs : List TabInfo)
    (w : World) : World × Option String :=
  if tabs.length = 0 then (w, none)
  else
    let w1 : World :=
      ⟨w.files ++ [(fileName, stringify emptyCanvasStructure)],
       w.openedPanes ++ [fileName]⟩
    let canvasData := generateCanvasJSON uuid tabs
    let w2 : World :=
      ⟨vaultModify w1.files fileName (stringify canvasData), w1.openedPanes⟩
    (w2, some fileName)

/-! ## Single-card append (DragDropHandler.addNodeToCanvas) -/

/-- The nodes array the append starts from: the existing array, or `[]` when
the `nodes` property is absent or falsy (and hence defaulted by the source). -/
def oldNodesOf (fields : List (String × JsValue)) : List JsValue :=
  match assocGet fields "nodes" with
  | some (.arr ns) => ns
  | _ => []

/-- The pure read-modify part of `DragDropHandler.addNodeToCanvas` on a parsed
canvas document object: default a falsy/absent `nodes` to `[]`; push the new
node (`none` models the TypeError thrown when `nodes` is truthy but not an
array — caught, logged and rethrown by the source, so nothing is written);
default a falsy/absent `metadata` to the standard metadata object. -/
def addNodeToData (fields : List (String × JsValue)) (newNode : JsValue) :
    Option (List (String × JsValue)) :=
  let fields1 :=
    if truthyOpt (assocGet fields "nodes") then fields
    else assocSet fields "nodes" (.arr [])
  match assocGet fields1 "nodes" with
  | some (.arr ns) =>
    let fields2 := assocSet fields1 "nodes" (.arr (ns ++ [newNode]))
    let fields3 :=
      if truthyOpt (assocGet fields2 "metadata") then fields2
      else assocSet fields2 "metadata" defaultMetadata
    some fields3
  | _ => none

/-- Embedding of `DragDropHandler.addNodeToCanvas`: read the canvas file, `JSON.parse` it
(`parseDoc`, a host primitive, yields the top-level object's fields or `none`
when the content is not parseable), apply the append, `JSON.stringify` and
`vault.modify`. Any thrown error is caught, logged and rethrown before any
write, leaving the vault untouched; the Bool records whether a write happened. -/
def addNodeToCanvas (parseDoc : String → Option (List (String × JsValue)))
    (stringify : JsValue → String) (vault : List (String × String))
    (canvasPath : String) (newNode : JsValue) :
    List (String × String) × Bool :=
  match vaultRead vault canvasPath with
  | none => (vault, false)
  | some content =>
    match parseDoc content with
    | none => (vault, false)
    | some fields =>
      match addNodeToData fields newNode with
      | some fields2 =>
        (vaultModify vault canvasPath (stringify (.obj fields2)), true)
      | none => (vault, false)

/-! ## Output-folder normalization (settings.ts, canvasOutputFolder onChange)

JS strings are modelled as character lists: `startsWith "/"` is a check of the
first character, `"/" + value` prepends, `endsWith "/"` checks the last
character, `slice(0, -1)` is `dropLast`. -/

def normalizeCanvasOutputFolder (value : List Char) : List Char :=
  let normalized := if value.head? = some '/' then value else '/' :: value
  if normalized.getLast? = some '/' ∧ 1 < normalized.length then
    normalized.dropLast
  else normalized

/-- Whether a string ends in two consecutive slashes. -/
def endsWithTwoSlashes (value : List Char) : Bool :=
  match value.reverse with
  | c1 :: c2 :: _ => c1 == '/' && c2 == '/'
  | _ => false

/-! # Theorems -/

/-! ## C2 — grid planner -/

theorem sqrt_two_eq : Nat.sqrt 2 = 1 := by
  have h1 : 1 ≤ Nat.sqrt 2 := Nat.le_sqrt.mpr (by omega)
  have h2 : Nat.sqrt 2 < 2 := Nat.sqrt_lt.mpr (by omega)
  omega

theorem sqrt_five_eq : Nat.sqrt 5 = 2 := by
  have h1 : 2 ≤ Nat.sqrt 5 := Nat.le_sqrt.mpr (by omega)
  have h2 : Nat.sqrt 5 < 3 := Nat.sqrt_lt.mpr (by omega)
  omega

theorem ceilSqrt_two : ceilSqrt 2 = 2 := by
  simp [ceilSqrt, sqrt_two_eq]

theorem ceilSqrt_five : ceilSqrt 5 = 3 := by
  simp [ceilSqrt, sqrt_five_eq]

theorem ceilSqrt_pos (n : Nat) (hn : 1 ≤ n) : 0 < ceilSqrt n := by
  unfold ceilSqrt
  split
  · rename_i h
    rcases Nat.eq_zero_or_pos (Nat.sqrt n) with h0 | h1
    · rw [h0] at h
      omega
    · exact h1
  · omega

theorem mosaic_injective (c w h s : Nat) (hw : 0 < w + s) (hh : 0 < h + s) :
    Function.Injective (fun i : Nat =>
      ((i % c) * (w + s), (i / c) * (h + s))) := by
  intro i j hij
  simp only [Prod.mk.injEq] at hij
  obtain ⟨hx, hy⟩ := hij
  have hmod : i % c = j % c := Nat.eq_of_mul_eq_mul_right hw hx
  have hdiv : i / c = j / c := Nat.eq_of_mul_eq_mul_right hh hy
  have hi := Nat.div_add_mod i c
  have hj := Nat.div_add_mod j c
  rw [hmod, hdiv] at hi
  omega

/-- C2 (amended): for `count ≥ 1` and dimensions with `width + spacing > 0` and
`height + spacing > 0`, `calculateMosaicPositions` returns exactly `count`
positions, position `i` is
`((i % ceilSqrt count) * (w + s), (i / ceilSqrt count) * (h + s))`, and all
positions are pairwise distinct. (Determinism is inherent: the embedding is a
pure function of its arguments.) -/
theorem calculateMosaicPositions_spec (count w h s : Nat) (_hc : 1 ≤ count)
    (hw : 0 < w + s) (hh : 0 < h + s) :
    (calculateMosaicPositions count w h s).length = count ∧
    (∀ i, i < count →
      (calculateMosaicPositions count w h s)[i]? =
        some ((i % ceilSqrt count) * (w + s), (i / ceilSqrt count) * (h + s))) ∧
    (calculateMosaicPositions count w h s).Nodup := by
  refine ⟨?_, ?_, ?_⟩
  · simp [calculateMosaicPositions]
  · intro i hi
    simp [calculateMosaicPositions, List.getElem?_map, List.getElem?_range, hi]
  · dsimp only [calculateMosaicPositions]
    exact List.Nodup.map (mosaic_injective (ceilSqrt count) w h s hw hh)
      (List.nodup_range count)

/-- C2 counterexample: with degenerate dimensions `w = h = s = 0` the planner
emits duplicate positions, so the claim's unconditional pairwise-distinctness
over all dimensions fails. -/
theorem calculateMosaicPositions_degenerate :
    calculateMosaicPositions 2 0 0 0 = [(0, 0), (0, 0)] ∧
    ¬ (calculateMosaicPositions 2 0 0 0).Nodup := by
  have he : calculateMosaicPositions 2 0 0 0 = [(0, 0), (0, 0)] := by
    dsimp only [calculateMosaicPositions]
    simp only [ceilSqrt_two]
    decide
  refine ⟨he, ?_⟩
  rw [he]
  decide

/-- C2 witness: at `count = 5, w = 250, h = 250, s = 50` the hypotheses hold,
the planner is pairwise distinct, and the concrete layout matches the spec. -/
theorem calculateMosaicPositions_spec_witness :
    (calculateMosaicPositions 5 250 250 50).Nodup ∧
    calculateMosaicPositions 5 250 250 50 =
      [(0, 0), (300, 0), (600, 0), (0, 300), (300, 300)] := by
  refine ⟨(calculateMosaicPositions_spec 5 250 250 50 (by decide) (by decide)
      (by decide)).2.2, ?_⟩
  dsimp only [calculateMosaicPositions]
  simp only [ceilSqrt_five]
  decide

/-! ## C6 — index rebuild partial success -/

/-- C7: invoked with an empty tab list, canvas creation returns no document
and leaves the vault's files and the set of open panes entirely unchanged. -/
theorem createCanvasFromOpenTabs_empty (uuid : Nat → String)
    (stringify : JsValue → String) (fileName : String) (w : World) :
    createCanvasFromOpenTabs uuid stringify fileName [] w = (w, none) := rfl

/-! ## C4 — append atomicity on malformed input -/

/-- C4: when the canvas file exists but its content is not parseable
(`parseDoc content = none`, modelling the `JSON.parse` throw), the append
fails before any write: the vault is returned byte-for-byte unchanged. -/
theorem addNodeToCanvas_malformed (parseDoc : String → Option (List (String × JsValue)))
    (stringify : JsValue → String) (vault : List (String × String))
    (canvasPath content : String) (newNode : JsValue)
    (hread : vaultRead vault canvasPath = some content)
    (hparse : parseDoc content = none) :
    addNodeToCanvas parseDoc stringify vault canvasPath newNode = (vault, false) := by
  simp [addNodeToCanvas, hread, hparse]

/-- C4 witness: a one-file vault whose canvas content no parser accepts. -/
theorem addNodeToCanvas_malformed_witness :
    addNodeToCanvas (fun _ => none) (fun _ => "") [("b.canvas", "nonsense")]
      "b.canvas" JsValue.null = ([("b.canvas", "nonsense")], false) :=
  addNodeToCanvas_malformed (fun _ => none) (fun _ => "")
    [("b.canvas", "nonsense")] "b.canvas" "nonsense" JsValue.null rfl rfl

/-! ## C3 — retry-once bound -/

theorem buildMapAttempts_retried_le_one (snaps : Nat → List (Option NodeView))
    (f i : Nat) : buildMapAttempts snaps i true f ≤ 1 := by
  cases f with
  | zero => simp [buildMapAttempts]
  | succ f => simp [buildMapAttempts]

theorem buildMapAttempts_le_two (snaps : Nat → List (Option NodeView))
    (f i : Nat) (r : Bool) : buildMapAttempts snaps i r f ≤ 2 := by
  cases f with
  | zero => simp [buildMapAttempts]
  | succ f =>
    have h := buildMapAttempts_retried_le_one snaps f (i + 1)
    simp only [buildMapAttempts]
    split
    · split
      · omega
      · omega
    · omega

/-- C3: if the first index rebuild of a binding session finds zero valid
entries while the surface reports a non-zero card count, exactly one retry runs
(a total of two executions, whatever the retry finds — in particular when it
again finds zero valid entries it only surfaces a diagnostic), and no run of
the session ever triggers a third execution; the retry delay is the fixed
1000 ms of the source. -/
theorem buildMapAttempts_spec (snaps : Nat → List (Option NodeView))
    (fuel : Nat) (hfuel : 2 ≤ fuel)
    (h0 : validNodeCount (snaps 0) = 0) (hn0 : 0 < (snaps 0).length) :
    buildMapAttempts snaps 0 false fuel = 2 ∧
    (∀ f i r, buildMapAttempts snaps i r f ≤ 2) ∧
    retryDelayMs = 1000 := by
  refine ⟨?_, fun f i r => buildMapAttempts_le_two snaps f i r, rfl⟩
  obtain ⟨k, rfl⟩ : ∃ k, fuel = k + 2 := ⟨fuel - 2, by omega⟩
  show buildMapAttempts snaps 0 false ((k + 1) + 1) = 2
  simp only [buildMapAttempts]
  rw [if_pos ⟨h0, hn0⟩, if_neg Bool.false_ne_true]
  simp

/-- C3 witness: a session whose surface always reports one card with a `null`
file field (never extractable): both runs find zero valid entries, and the
session executes the rebuild exactly twice. -/
theorem buildMapAttempts_spec_witness :
    buildMapAttempts (fun _ => [some ⟨1, JsValue.null⟩]) 0 false 5 = 2 :=
  (buildMapAttempts_spec (fun _ => [some ⟨1, JsValue.null⟩]) 5 (by omega)
    (by decide) (by decide)).1

/-! ## C1 — at-most-one highlight invariant -/

theorem highlightedCount_clearAll (canvasNodes hl : List Nat) :
    highlightedCount canvasNodes (clearAllHighlights canvasNodes hl) = 0 := by
  simp only [highlightedCount, List.length_eq_zero]
  rw [List.filter_eq_nil_iff]
  intro a ha
  simp only [clearAllHighlights, List.mem_filter, Bool.not_eq_true'] at ha
  simpa using ha.2

theorem highlightedCount_addClass_le (canvasNodes hl : List Nat) (n : Nat)
    (h : highlightedCount canvasNodes hl = 0) :
    highlightedCount canvasNodes (addClass hl n) ≤ 1 := by
  unfold addClass
  split
  · simp [h]
  · unfold highlightedCount at h ⊢
    rw [List.filter_cons]
    split
    · rw [List.length_cons, h]
    · rw [h]
      omega

theorem updateActiveHighlight_le_one (canvasNodes : List Nat)
    (fileMap : List (String × NodeView)) (hl : List Nat) (e : Option String) :
    highlightedCount canvasNodes
      (updateActiveHighlight canvasNodes fileMap hl e) ≤ 1 := by
  have hclear := highlightedCount_clearAll canvasNodes hl
  cases e with
  | none => simp [updateActiveHighlight, hclear]
  | some path =>
    simp only [updateActiveHighlight]
    cases hget : assocGet fileMap path with
    | none => simp [hclear]
    | some nv =>
      exact highlightedCount_addClass_le canvasNodes _ nv.nodeId hclear

/-- C1: after any sequence of workspace focus-change events ending in at least
one event, at most one card of the bound surface's node collection carries the
active-highlight class: each event first clears the class from every card of
the surface and then applies it to at most the single card found for the
now-active document in the file-node index. -/
theorem atMostOneHighlight (canvasNodes : List Nat)
    (fileMap : List (String × NodeView)) (hl0 : List Nat)
    (events : List (Option String)) (e : Option String) :
    highlightedCount canvasNodes
      (processFocusEvents canvasNodes fileMap hl0 (events ++ [e])) ≤ 1 := by
  simp only [processFocusEvents, List.foldl_append, List.foldl_cons,
    List.foldl_nil]
  exact updateActiveHighlight_le_one canvasNodes fileMap _ e

/-! ## C8 — awaitReady contract -/

theorem waitPoll_all_none (surface : Nat → Option Nat) :
    ∀ (fuel t : Nat), (∀ j, j < fuel → surface (t + 150 * j) = none) →
      waitPoll surface t fuel = false := by
  intro fuel
  induction fuel with
  | zero => intro t _; rfl
  | succ f ih =>
    intro t h
    have h0 : surface t = none := by simpa using h 0 (by omega)
    simp only [waitPoll, h0]
    apply ih
    intro j hj
    have heq : t + 150 + 150 * j = t + 150 * (j + 1) := by ring
    rw [heq]
    exact h (j + 1) (by omega)

theorem waitPoll_first_some (surface : Nat → Option Nat) :
    ∀ (fuel t j n : Nat), j < fuel → surface (t + 150 * j) = some n →
      (∀ i, i < j → surface (t + 150 * i) = none) →
      waitPoll surface t fuel = true := by
  intro fuel
  induction fuel with
  | zero => intro t j n hj _ _; omega
  | succ f ih =>
    intro t j n hj hs hprev
    cases j with
    | zero =>
      have h0 : surface t = some n := by simpa using hs
      simp [waitPoll, h0]
    | succ k =>
      have h0 : surface t = none := by simpa using hprev 0 (by omega)
      simp only [waitPoll, h0]
      refine ih (t + 150) k n (by omega) ?_ ?_
      · have heq : t + 150 + 150 * k = t + 150 * (k + 1) := by ring
        rw [heq]
        exact hs
      · intro i hi
        have heq : t + 150 + 150 * i = t + 150 * (i + 1) := by ring
        rw [heq]
        exact hprev (i + 1) (by omega)

/-- C8 (amended): the readiness wait polls at the fixed 150 ms interval — poll
`j` happens at elapsed time `150 * j`, while `150 * j < maxWait` — until a
poll sees the canvas object, returning `true` then, whether or not the node
collection is non-empty at that poll (the source treats a canvas with an empty
node collection as ready too); if no poll within the budget sees a canvas —
including a surface that becomes ready only after the budget — the wait
returns `false` without throwing once the timeout elapses. -/
theorem waitForCanvasFullyReady_spec (surface : Nat → Option Nat)
    (maxWait : Nat) :
    ((∀ j, 150 * j < maxWait → surface (150 * j) = none) →
      waitForCanvasFullyReady surface maxWait = false) ∧
    (∀ j n, 150 * j < maxWait → surface (150 * j) = some n →
      (∀ i, i < j → surface (150 * i) = none) →
      waitForCanvasFullyReady surface maxWait = true) := by
  constructor
  · intro h
    unfold waitForCanvasFullyReady
    apply waitPoll_all_none
    intro j hj
    have hjt : 150 * j < maxWait := by
      unfold pollBudget at hj
      omega
    simpa using h j hjt
  · intro j n hj hs hprev
    unfold waitForCanvasFullyReady
    refine waitPoll_first_some surface (pollBudget maxWait) 0 j n ?_ ?_ ?_
    · unfold pollBudget
      omega
    · simpa using hs
    · intro i hi
      simpa using hprev i hi

/-- C8 counterexample: a surface whose canvas object exists from the first
poll but whose node collection stays empty forever makes the wait return
`true` immediately — refuting the claim that `true` is returned only once the
node collection is non-empty. -/
theorem waitForCanvasFullyReady_emptyNodes :
    waitForCanvasFullyReady (fun _ => some 0) 5000 = true ∧
    (∀ t n, (fun _ : Nat => (some 0 : Option Nat)) t = some n → ¬ 0 < n) := by
  constructor
  · rfl
  · intro t n h
    simp only [Option.some.injEq] at h
    omega

/-- C8 witness: a surface that becomes ready only at 3000 ms, after the
3000 ms budget's last poll, yields `false`; a surface that becomes ready at
300 ms — seen by the third poll (`j = 2`), after two unsuccessful polls —
yields `true`. -/
theorem waitForCanvasFullyReady_spec_witness :
    waitForCanvasFullyReady (fun t => if t < 3000 then none else some 1)
      3000 = false ∧
    waitForCanvasFullyReady (fun t => if t < 300 then none else some 5)
      3000 = true :=
  ⟨(waitForCanvasFullyReady_spec (fun t => if t < 3000 then none else some 1)
      3000).1 (fun j hj => by simp [hj]),
   (waitForCanvasFullyReady_spec (fun t => if t < 300 then none else some 5)
      3000).2 2 5 (by omega) (by decide) (by decide)⟩

/-! ## Association-list lemmas (JS object / Map semantics) -/

theorem assocGet_assocSet_self {α : Type} (l : List (String × α)) (k : String)
    (v : α) : assocGet (assocSet l k v) k = some v := by
  induction l with
  | nil => simp [assocSet, assocGet]
  | cons kv rest ih =>
    by_cases h : kv.1 = k
    · simp [assocSet, assocGet, h]
    · have hb : (kv.1 == k) = false := beq_eq_false_iff_ne.mpr h
      simp [assocSet, assocGet, hb, ih]

theorem assocGet_assocSet_ne {α : Type} (l : List (String × α)) (k k' : String)
    (v : α) (h : k' ≠ k) :
    assocGet (assocSet l k v) k' = assocGet l k' := by
  have hkk : (k == k') = false := beq_eq_false_iff_ne.mpr (Ne.symm h)
  induction l with
  | nil => simp [assocSet, assocGet, hkk]
  | cons kv rest ih =>
    by_cases h1 : kv.1 = k
    · simp [assocSet, assocGet, h1, hkk]
    · have hb : (kv.1 == k) = false := beq_eq_false_iff_ne.mpr h1
      by_cases h2 : kv.1 = k'
      · simp [assocSet, assocGet, hb, h2, h]
      · have hb2 : (kv.1 == k') = false := beq_eq_false_iff_ne.mpr h2
        simp [assocSet, assocGet, hb, hb2, ih]

theorem metadata_step (fields2 out : List (String × JsValue))
    (hout : out =
      if truthyOpt (assocGet fields2 "metadata") = true then fields2
      else assocSet fields2 "metadata" defaultMetadata) :
    assocGet out "nodes" = assocGet fields2 "nodes" ∧
    (∀ k, k ≠ "nodes" → k ≠ "metadata" → assocGet out k = assocGet fields2 k) ∧
    (truthyOpt (assocGet fields2 "metadata") = true →
      assocGet out "metadata" = assocGet fields2 "metadata") ∧
    (truthyOpt (assocGet fields2 "metadata") = false →
      assocGet out "metadata" = some defaultMetadata) := by
  have hmn : ("metadata" : String) ≠ "nodes" := by decide
  subst hout
  by_cases hm : truthyOpt (assocGet fields2 "metadata") = true
  · rw [if_pos hm]
    refine ⟨rfl, fun k _ _ => rfl, fun _ => rfl, fun hf => ?_⟩
    rw [hm] at hf
    cases hf
  · rw [if_neg hm]
    exact ⟨assocGet_assocSet_ne fields2 "metadata" "nodes" defaultMetadata
        (Ne.symm hmn),
      fun k _ hk2 => assocGet_assocSet_ne fields2 "metadata" k defaultMetadata hk2,
      fun ht => absurd ht hm,
      fun _ => assocGet_assocSet_self fields2 "metadata" defaultMetadata⟩

/-- C5 (amended): on a canvas document whose `nodes` property is an array or
is absent/falsy (and hence defaulted to `[]`), appending one card succeeds,
pushes exactly that one node to the end of the nodes array, leaves every other
top-level key — `edges`, unknown keys, and all pre-existing (including
unrecognized) nodes — unchanged, keeps an existing truthy `metadata` object
untouched, and sets `metadata` to the default object exactly when the
`metadata` property is absent or falsy (not only when the key is absent). -/
theorem addNodeToData_spec (fields : List (String × JsValue)) (newNode : JsValue)
    (h : (∃ ns, assocGet fields "nodes" = some (JsValue.arr ns)) ∨
         truthyOpt (assocGet fields "nodes") = false) :
    ∃ out, addNodeToData fields newNode = some out ∧
      assocGet out "nodes" =
        some (JsValue.arr (oldNodesOf fields ++ [newNode])) ∧
      (∀ k, k ≠ "nodes" → k ≠ "metadata" →
        assocGet out k = assocGet fields k) ∧
      (truthyOpt (assocGet fields "metadata") = true →
        assocGet out "metadata" = assocGet fields "metadata") ∧
      (truthyOpt (assocGet fields "metadata") = false →
        assocGet out "metadata" = some defaultMetadata) := by
  have hmn : ("metadata" : String) ≠ "nodes" := by decide
  rcases h with ⟨ns, hns⟩ | hfal
  · -- nodes is already an array
    have htr : truthyOpt (assocGet fields "nodes") = true := by rw [hns]; rfl
    have hold : oldNodesOf fields = ns := by simp [oldNodesOf, hns]
    have hmeta2 :
        assocGet (assocSet fields "nodes" (JsValue.arr (ns ++ [newNode])))
          "metadata" = assocGet fields "metadata" :=
      assocGet_assocSet_ne fields "nodes" "metadata" _ hmn
    have hrun : addNodeToData fields newNode = some (
        if truthyOpt (assocGet
            (assocSet fields "nodes" (JsValue.arr (ns ++ [newNode])))
            "metadata") = true
        then assocSet fields "nodes" (JsValue.arr (ns ++ [newNode]))
        else assocSet
          (assocSet fields "nodes" (JsValue.arr (ns ++ [newNode])))
          "metadata" defaultMetadata) := by
      simp [addNodeToData, hns, truthyOpt, truthy]
    obtain ⟨hnodes, hoth, hmt, hmf⟩ := metadata_step _ _ rfl
    refine ⟨_, hrun, ?_, ?_, ?_, ?_⟩
    · rw [hnodes, assocGet_assocSet_self, hold]
    · intro k h1 h2
      rw [hoth k h1 h2, assocGet_assocSet_ne fields "nodes" k _ h1]
    · intro ht
      rw [hmt (by rw [hmeta2]; exact ht), hmeta2]
    · intro hf
      exact hmf (by rw [hmeta2]; exact hf)
  · -- nodes absent or falsy: defaulted to the empty array first
    have hold : oldNodesOf fields = [] := by
      unfold oldNodesOf
      cases hv : assocGet fields "nodes" with
      | none => rfl
      | some v =>
        rw [hv] at hfal
        cases v <;> simp [truthyOpt, truthy] at hfal ⊢
    have hget1 : assocGet (assocSet fields "nodes" (JsValue.arr []))
        "nodes" = some (JsValue.arr []) :=
      assocGet_assocSet_self fields "nodes" (JsValue.arr [])
    have hmeta2 :
        assocGet (assocSet (assocSet fields "nodes" (JsValue.arr []))
          "nodes" (JsValue.arr [newNode])) "metadata" =
        assocGet fields "metadata" := by
      rw [assocGet_assocSet_ne _ "nodes" "metadata" _ hmn,
        assocGet_assocSet_ne fields "nodes" "metadata" _ hmn]
    have hrun : addNodeToData fields newNode = some (
        if truthyOpt (assocGet
            (assocSet (assocSet fields "nodes" (JsValue.arr []))
              "nodes" (JsValue.arr [newNode]))
            "metadata") = true
        then assocSet (assocSet fields "nodes" (JsValue.arr []))
          "nodes" (JsValue.arr [newNode])
        else assocSet
          (assocSet (assocSet fields "nodes" (JsValue.arr []))
            "nodes" (JsValue.arr [newNode]))
          "metadata" defaultMetadata) := by
      simp [addNodeToData, hfal, hget1]
    obtain ⟨hnodes, hoth, hmt, hmf⟩ := metadata_step _ _ rfl
    refine ⟨_, hrun, ?_, ?_, ?_, ?_⟩
    · rw [hnodes, assocGet_assocSet_self, hold]
      rfl
    · intro k h1 h2
      rw [hoth k h1 h2, assocGet_assocSet_ne _ "nodes" k _ h1,
        assocGet_assocSet_ne fields "nodes" k _ h1]
    · intro ht
      rw [hmt (by rw [hmeta2]; exact ht), hmeta2]
    · intro hf
      exact hmf (by rw [hmeta2]; exact hf)

/-- C5 counterexample: two behaviours diverge from the claim as stated. A
truthy non-array `nodes` makes the push throw (so nothing is appended), and a
present-but-falsy `metadata` (here `null`) is overwritten with the default
object even though the `metadata` key is present. -/
theorem addNodeToData_counterexample :
    addNodeToData [("nodes", JsValue.str "x")] (JsValue.str "n") = none ∧
    addNodeToData [("nodes", JsValue.arr []), ("metadata", JsValue.null)]
        (JsValue.str "n") =
      some [("nodes", JsValue.arr [JsValue.str "n"]),
        ("metadata", defaultMetadata)] :=
  ⟨rfl, rfl⟩

/-- C5 witness: the spec's scenario — appending one card to
`(nodes [], edges [], custom "x")` appends the card, preserves `edges` and
the unknown key `custom`, and adds the default metadata at the end. -/
theorem addNodeToData_spec_witness :
    addNodeToData
      [("nodes", JsValue.arr []), ("edges", JsValue.arr []),
        ("custom", JsValue.str "x")] (JsValue.str "card") =
      some [("nodes", JsValue.arr [JsValue.str "card"]),
        ("edges", JsValue.arr []), ("custom", JsValue.str "x"),
        ("metadata", defaultMetadata)] ∧
    ∃ out, addNodeToData
        [("nodes", JsValue.arr []), ("edges", JsValue.arr []),
          ("custom", JsValue.str "x")] (JsValue.str "card") = some out ∧
      assocGet out "nodes" = some (JsValue.arr [JsValue.str "card"]) ∧
      assocGet out "custom" = some (JsValue.str "x") ∧
      assocGet out "metadata" = some defaultMetadata := by
  refine ⟨rfl, ?_⟩
  obtain ⟨out, h1, h2, h3, h4, h5⟩ := addNodeToData_spec
    [("nodes", JsValue.arr []), ("edges", JsValue.arr []),
      ("custom", JsValue.str "x")] (JsValue.str "card") (Or.inl ⟨[], rfl⟩)
  refine ⟨out, h1, ?_, ?_, ?_⟩
  · simpa using h2
  · rw [h3 "custom" (by decide) (by decide)]
    rfl
  · exact h5 rfl

/-! ## C9 — output-folder normalization -/

theorem endsWithTwoSlashes_concat (t : List Char) :
    endsWithTwoSlashes (t ++ ['/', '/']) = true := by
  simp [endsWithTwoSlashes, List.reverse_append]

/-- C9 (amended): the stored `canvasOutputFolder` always starts with `/`; it
does not end with `/` provided the entered value is non-empty, is not the
single character `/`, and does not end in two consecutive slashes. (The inputs
`""` and `"/"` both store `"/"` — the source deliberately keeps the bare root
slash — and only one trailing slash is stripped.) -/
theorem normalizeCanvasOutputFolder_spec (v : List Char) :
    (normalizeCanvasOutputFolder v).head? = some '/' ∧
    (v ≠ [] → v ≠ ['/'] → endsWithTwoSlashes v = false →
      (normalizeCanvasOutputFolder v).getLast? ≠ some '/') := by
  unfold normalizeCanvasOutputFolder
  by_cases hv : v.head? = some '/'
  · rw [if_pos hv]
    by_cases hc : v.getLast? = some '/' ∧ 1 < v.length
    · rw [if_pos hc]
      obtain ⟨t, ht⟩ := List.getLast?_eq_some_iff.mp hc.1
      subst ht
      have htne : t ≠ [] := by
        intro h0
        subst h0
        simp at hc
      rw [List.dropLast_concat]
      constructor
      · have hh := @List.head?_append_of_ne_nil Char t ['/'] htne
        rw [hh] at hv
        exact hv
      · intro _ h2 h3 hlast
        obtain ⟨t2, ht2⟩ := List.getLast?_eq_some_iff.mp hlast
        subst ht2
        rw [List.append_assoc] at h3
        simp only [List.singleton_append] at h3
        rw [endsWithTwoSlashes_concat] at h3
        cases h3
    · rw [if_neg hc]
      refine ⟨hv, ?_⟩
      intro h1 h2 _ hlast
      have hlen : ¬ 1 < v.length := fun hl => hc ⟨hlast, hl⟩
      have hpos : 0 < v.length := List.length_pos.mpr h1
      have h1len : v.length = 1 := by omega
      obtain ⟨c, hc1⟩ := List.length_eq_one.mp h1len
      subst hc1
      simp only [List.getLast?_singleton, Option.some.injEq] at hlast
      exact h2 (by rw [hlast])
  · rw [if_neg hv]
    by_cases hc : ('/' :: v).getLast? = some '/' ∧ 1 < ('/' :: v).length
    · rw [if_pos hc]
      obtain ⟨t, ht⟩ := List.getLast?_eq_some_iff.mp hc.1
      have htne : t ≠ [] := by
        intro h0
        rw [h0] at ht
        simp at ht
        subst ht
        simp at hc
      rw [ht, List.dropLast_concat]
      constructor
      · have hh := @List.head?_append_of_ne_nil Char t ['/'] htne
        rw [← ht] at hh
        simpa using hh.symm
      · intro h1 h2 h3 hlast
        obtain ⟨t2, ht2⟩ := List.getLast?_eq_some_iff.mp hlast
        subst ht2
        rw [List.append_assoc] at ht
        simp only [List.singleton_append] at ht
        cases t2 with
        | nil =>
          simp at ht
          exact h2 ht
        | cons c t3 =>
          simp only [List.cons_append] at ht
          injection ht with hc3 hv2
          rw [hv2, endsWithTwoSlashes_concat] at h3
          cases h3
    · rw [if_neg hc]
      refine ⟨rfl, ?_⟩
      intro h1 _ _ hlast
      have hlen : ¬ 1 < ('/' :: v).length := fun hl => hc ⟨hlast, hl⟩
      have hpos : 0 < v.length := List.length_pos.mpr h1
      simp only [List.length_cons] at hlen
      omega

/-- C9 counterexample: entering the empty string stores `"/"`, which ends with
`/`, refuting the claim's trailing-slash guarantee on edge inputs (the source
keeps a bare `"/"` because of its `length > 1` guard). -/
theorem normalizeCanvasOutputFolder_empty :
    normalizeCanvasOutputFolder [] = ['/'] ∧
    (normalizeCanvasOutputFolder []).getLast? = some '/' := ⟨rfl, rfl⟩

/-- C9 witness: the input `"ab/"` is non-empty, is not `"/"`, does not end in
two slashes, and is stored as `"/ab"` — leading slash added, trailing slash
stripped. -/
theorem normalizeCanvasOutputFolder_spec_witness :
    (normalizeCanvasOutputFolder ['a', 'b', '/']).head? = some '/' ∧
    (normalizeCanvasOutputFolder ['a', 'b', '/']).getLast? ≠ some '/' :=
  ⟨(normalizeCanvasOutputFolder_spec ['a', 'b', '/']).1,
   (normalizeCanvasOutputFolder_spec ['a', 'b', '/']).2 (by decide) (by decide)
     (by decide)⟩

end OpenTabsCanvas
